import Mathlib

/-!
Verification of the SysAdminAutomation-py scripts.

Each Python script is shallowly embedded: pure logic becomes Lean functions,
the effect of a loop body on the filesystem becomes explicit state values,
fallible operations are driven by outcome oracles, and machine integers are
modelled as Int/Nat.  Filenames are modelled as lists of characters (Python
strings are sequences of characters), directory paths in walk models as lists
of path components.
-/

/- ### log_rotate.py: rotation filter and per-file compression effect -/

/-- Python str.endswith, on strings modelled as lists of characters. -/
def pyEndsWith (s sfx : List Char) : Bool := decide (sfx <:+ s)

/-- The literal ".log" suffix tested by rotate_logs. -/
def dotLog : List Char := ['.', 'l', 'o', 'g']

/-- The literal ".gz" suffix tested by rotate_logs. -/
def dotGz : List Char := ['.', 'g', 'z']

/-- The path separator used by os.path.join. -/
def pathSep : Char := '/'

/-- Selection filter of the compression loop of rotate_logs (lines 41-49):
names not ending in ".log" are skipped; a surviving file is compressed when
st_mtime < now - days*24*3600 and the joined path does not end in ".gz". -/
def selectedForCompress (now days : Int) (root fname : List Char) (mtime : Int) : Bool :=
  pyEndsWith fname dotLog &&
    (decide (mtime < now - days * 24 * 3600) &&
      !pyEndsWith (root ++ [pathSep] ++ fname) dotGz)

/-- The 90-day archive expiry filter of rotate_logs (lines 68-76): a walked
name is removed when it ends in ".gz" and st_mtime < now - 90*24*3600. -/
def selectedForGzRemoval (now : Int) (fname : List Char) (mtime : Int) : Bool :=
  pyEndsWith fname dotGz && decide (mtime < now - 90 * 24 * 3600)

/-- Outcome of the guarded gzip write of rotate_logs (lines 51-56): the write
may succeed, or raise leaving a truncated copy on disk, or raise before any
output file exists. -/
inductive CompressOutcome where
  | ok
  | failLeavingIncomplete
  | failLeavingNothing
deriving DecidableEq

/-- State of the compressed copy of one log file after the rotation scan. -/
inductive GzState where
  | absent
  | incomplete
  | complete
deriving DecidableEq

/-- One file met by the rotation walk: its name, its stat mtime, and oracles
saying whether the gzip write and the os.remove call would succeed on it. -/
structure RotEntry where
  fname : List Char
  mtime : Int
  compress : CompressOutcome
  removeOk : Bool
deriving DecidableEq

/-- Filesystem state left behind for one walked file, plus whether a warning
was logged for it. -/
structure FileOutcome where
  origPresent : Bool
  gz : GzState
  warned : Bool
deriving DecidableEq

/-- Effect of the compression loop body of rotate_logs (lines 41-62) on a
single walked file: unselected files are untouched; on a failed gzip write a
warning is logged and the loop moves on with the original kept; only after a
successful write is os.remove attempted, and a failed remove logs a warning
and keeps the original next to the complete copy. -/
def rotateFile (now days : Int) (root : List Char) (e : RotEntry) : FileOutcome :=
  if selectedForCompress now days root e.fname e.mtime then
    match e.compress with
    | .failLeavingNothing => ⟨true, .absent, true⟩
    | .failLeavingIncomplete => ⟨true, .incomplete, true⟩
    | .ok => if e.removeOk then ⟨false, .complete, false⟩ else ⟨true, .complete, true⟩
  else ⟨true, .absent, false⟩

/-- The compression loop over every file yielded by the walk: no outcome of
one file aborts the scan, each file is processed in turn. -/
def rotateLogs (now days : Int) (root : List Char) (entries : List RotEntry) : List FileOutcome :=
  entries.map (rotateFile now days root)

theorem endsWith_log_not_gz (root fname : List Char) (h : pyEndsWith fname dotLog = true) :
    pyEndsWith (root ++ [pathSep] ++ fname) dotGz = false := by
  unfold pyEndsWith at h ⊢
  rw [decide_eq_true_iff] at h
  rw [decide_eq_false_iff_not]
  intro hgz
  have hfn : fname <:+ root ++ [pathSep] ++ fname := List.suffix_append _ _
  have hlog : dotLog <:+ root ++ [pathSep] ++ fname := h.trans hfn
  have hin : dotGz <:+ dotLog :=
    List.suffix_of_suffix_length_le hgz hlog (by decide)
  exact absurd hin (by decide)

/-- The walk root of rotate_logs, "/var/log", as a character list. -/
def vroot : List Char := ['/', 'v', 'a', 'r', '/', 'l', 'o', 'g']

/-- A sample uncompressed log name. -/
def appLog : List Char := ['a', 'p', 'p', '.', 'l', 'o', 'g']

/-- A sample compressed archive name. -/
def oldGz : List Char := ['o', 'l', 'd', '.', 'g', 'z']

/-- C4: the rotation age predicate selects a file exactly when its mtime is
below now minus the threshold in seconds and its name ends in ".log" (the
extra ".gz" test on the joined path is vacuous for ".log" names); with a
7-day threshold, .log files aged 10 and 100 days are compressed and their
originals removed while a 1-day-old file is untouched; with the fixed 90-day
expiry, a .gz archive aged 91 days is selected for removal while one aged 89
days is retained. -/
theorem c4_rotation_age_predicate :
    (∀ now days : Int, ∀ root fname : List Char, ∀ mtime : Int,
      selectedForCompress now days root fname mtime =
        (pyEndsWith fname dotLog && decide (mtime < now - days * 24 * 3600)))
    ∧ (∀ now : Int,
        rotateFile now 7 vroot ⟨appLog, now - 10 * 24 * 3600, .ok, true⟩ =
          ⟨false, .complete, false⟩
      ∧ rotateFile now 7 vroot ⟨appLog, now - 100 * 24 * 3600, .ok, true⟩ =
          ⟨false, .complete, false⟩
      ∧ rotateFile now 7 vroot ⟨appLog, now - 1 * 24 * 3600, .ok, true⟩ =
          ⟨true, .absent, false⟩
      ∧ selectedForGzRemoval now oldGz (now - 91 * 24 * 3600) = true
      ∧ selectedForGzRemoval now oldGz (now - 89 * 24 * 3600) = false) := by
  have h1 : pyEndsWith appLog dotLog = true := by decide
  have h2 : pyEndsWith (vroot ++ [pathSep] ++ appLog) dotGz = false := by decide
  have h3 : pyEndsWith oldGz dotGz = true := by decide
  constructor
  · intro now days root fname mtime
    unfold selectedForCompress
    cases hl : pyEndsWith fname dotLog with
    | false => simp
    | true =>
      rw [endsWith_log_not_gz root fname hl]
      simp
  · intro now
    have hs10 : selectedForCompress now 7 vroot appLog (now - 864000) = true := by
      unfold selectedForCompress
      rw [h1, h2]
      simp
      try omega
    have hs100 : selectedForCompress now 7 vroot appLog (now - 8640000) = true := by
      unfold selectedForCompress
      rw [h1, h2]
      simp
      try omega
    have hs1 : selectedForCompress now 7 vroot appLog (now - 86400) = false := by
      unfold selectedForCompress
      rw [h1, h2]
      simp
      try omega
    refine ⟨?_, ?_, ?_, ?_, ?_⟩
    · simp [rotateFile, hs10]
    · simp [rotateFile, hs100]
    · simp [rotateFile, hs1]
    · unfold selectedForGzRemoval
      rw [h3]
      simp
      try omega
    · unfold selectedForGzRemoval
      rw [h3]
      simp
      try omega

/-- C1: the original of a selected .log file is removed only after its
compressed copy was fully written: whenever the original is gone the copy is
complete; a failed gzip write leaves the original present with a warning
logged; it never happens that original and copy are both missing, nor that a
truncated copy exists while the original was removed; and the scan processes
every remaining entry regardless of the outcome on one file. -/
theorem c1_original_removed_only_after_complete_copy
    (now days : Int) (root : List Char) (e : RotEntry) (l1 l2 : List RotEntry) :
    ((rotateFile now days root e).origPresent = false →
      (rotateFile now days root e).gz = GzState.complete)
    ∧ (e.compress ≠ CompressOutcome.ok → (rotateFile now days root e).origPresent = true)
    ∧ (e.compress ≠ CompressOutcome.ok →
        selectedForCompress now days root e.fname e.mtime = true →
        (rotateFile now days root e).warned = true)
    ∧ ¬((rotateFile now days root e).origPresent = false ∧
        (rotateFile now days root e).gz = GzState.absent)
    ∧ ¬((rotateFile now days root e).origPresent = false ∧
        (rotateFile now days root e).gz = GzState.incomplete)
    ∧ rotateLogs now days root (l1 ++ e :: l2) =
        rotateLogs now days root l1 ++ rotateFile now days root e :: rotateLogs now days root l2 := by
  cases hsel : selectedForCompress now days root e.fname e.mtime <;>
    cases hc : e.compress <;>
      cases hr : e.removeOk <;>
        simp [rotateFile, rotateLogs, hsel, hc, hr]

/-- A selected .log entry whose gzip write fails leaving a truncated copy. -/
def c1SampleEntry : RotEntry :=
  ⟨appLog, -(10 * 24 * 3600), CompressOutcome.failLeavingIncomplete, true⟩

theorem c1_witness :
    (rotateFile 0 7 vroot c1SampleEntry).origPresent = true ∧
    (rotateFile 0 7 vroot c1SampleEntry).warned = true :=
  ⟨(c1_original_removed_only_after_complete_copy 0 7 vroot c1SampleEntry [] []).2.1
      (by decide),
   (c1_original_removed_only_after_complete_copy 0 7 vroot c1SampleEntry [] []).2.2.1
      (by decide) (by decide)⟩

/- ### os.walk with top-down pruning, shared by disk_cleanup and security_audit -/

mutual
/-- A directory of the modelled filesystem: plain files carrying a stat
payload, and named subdirectories. -/
inductive FSTree (α : Type) where
  | node : List (String × α) → FSForest α → FSTree α
/-- The ordered list of named subdirectories of a directory. -/
inductive FSForest (α : Type) where
  | nil : FSForest α
  | cons : String → FSTree α → FSForest α → FSForest α
end

mutual
/-- os.walk(root, topdown=True) as the scans use it: when the yielded
directory path is in the skip list the subdirectory list is emptied and the
loop body continues, so neither the files of that directory nor anything
below it is visited; otherwise the per-file payloads are collected and the
walk descends.  Paths are lists of components rooted at the walk root. -/
def walkTree {α : Type} (skip : List (List String)) (p : List String) :
    FSTree α → List (List String × α)
  | .node files subs =>
    if p ∈ skip then []
    else files.map (fun e => (p ++ [e.1], e.2)) ++ walkForest skip p subs
/-- The walk over the subdirectories of a directory at path p. -/
def walkForest {α : Type} (skip : List (List String)) (p : List String) :
    FSForest α → List (List String × α)
  | .nil => []
  | .cons name t rest => walkTree skip (p ++ [name]) t ++ walkForest skip p rest
end

/-- A list that is a prefix of l ++ [x] is all of it or a prefix of l. -/
theorem prefix_snoc {γ : Type} (s p : List γ) (x : γ) (h : s <+: p ++ [x]) :
    s = p ++ [x] ∨ s <+: p := by
  obtain ⟨t, ht⟩ := h
  rcases List.eq_nil_or_concat t with rfl | ⟨t2, y, rfl⟩
  · left
    simpa using ht
  · right
    rw [List.concat_eq_append, ← List.append_assoc] at ht
    have h2 := List.append_inj' ht (by simp)
    exact ⟨t2, h2.1⟩

/-- A walk rooted at an excluded path yields nothing at all. -/
theorem walkTree_of_mem_skip {α : Type} (skip : List (List String)) (p : List String)
    (hp : p ∈ skip) (t : FSTree α) : walkTree skip p t = [] := by
  cases t with
  | node files subs => simp [walkTree, hp]

mutual
/-- No entry collected by the pruned walk lies strictly beneath a skipped
path, provided the walk did not start at or below that path. -/
theorem walkTree_not_beneath {α : Type} (skip : List (List String)) (s p : List String)
    (hs : s ∈ skip) (hp : ¬s <+: p) (t : FSTree α) :
    ∀ pr ∈ walkTree skip p t, ¬(s <+: pr.1 ∧ s ≠ pr.1) := by
  cases t with
  | node files subs =>
    intro pr hpr
    by_cases hmem : p ∈ skip
    · simp [walkTree, hmem] at hpr
    · rw [walkTree, if_neg hmem] at hpr
      rcases List.mem_append.mp hpr with hf | hw
      · obtain ⟨e, he, rfl⟩ := List.mem_map.mp hf
        rintro ⟨hpre, hne⟩
        rcases prefix_snoc s p e.1 hpre with heq | hpre2
        · exact hne heq
        · exact hp hpre2
      · exact walkForest_not_beneath skip s p hs hp subs pr hw
/-- Forest version of walkTree_not_beneath. -/
theorem walkForest_not_beneath {α : Type} (skip : List (List String)) (s p : List String)
    (hs : s ∈ skip) (hp : ¬s <+: p) (f : FSForest α) :
    ∀ pr ∈ walkForest skip p f, ¬(s <+: pr.1 ∧ s ≠ pr.1) := by
  cases f with
  | nil =>
    intro pr hpr
    simp [walkForest] at hpr
  | cons name t rest =>
    intro pr hpr
    rw [walkForest] at hpr
    rcases List.mem_append.mp hpr with hl | hr
    · by_cases heq : s = p ++ [name]
      · rw [walkTree_of_mem_skip skip (p ++ [name]) (heq ▸ hs) t] at hl
        simp at hl
      · have hp2 : ¬s <+: p ++ [name] := by
          intro hc
          rcases prefix_snoc s p name hc with h1 | h2
          · exact heq h1
          · exact hp h2
        exact walkTree_not_beneath skip s (p ++ [name]) hs hp2 t pr hl
    · exact walkForest_not_beneath skip s p hs hp rest pr hr
end

/- ### disk_cleanup.py: top-10 largest files report -/

/-- The exclusion set shared by the scans: /proc, /run, /sys, /dev as
component paths below the walk root "/". -/
def skipDirs : List (List String) := [["proc"], ["run"], ["sys"], ["dev"]]

/-- Insertion step of the stable descending sort: walk past strictly larger
keys, land before the first key that is not larger. -/
def insertDesc {β : Type} (x : Nat × β) : List (Nat × β) → List (Nat × β)
  | [] => [x]
  | y :: ys => if y.1 > x.1 then y :: insertDesc x ys else x :: y :: ys

/-- list.sort(key=size, reverse=True): the stable sort by the numeric key in
descending order, characterised below by sortedness, permutation and
first-seen-wins stability. -/
def sortDesc {β : Type} : List (Nat × β) → List (Nat × β)
  | [] => []
  | a :: l => insertDesc a (sortDesc l)

/-- largest_files[:10] after the in-place sort (lines 64-66). -/
def topLargest {β : Type} (cands : List (Nat × β)) : List (Nat × β) :=
  (sortDesc cands).take 10

/-- File-size candidates of show_disk_usage_and_large_files: the walk from
"/" with the virtual directories pruned; an os.path.getsize result is
modelled as Option Nat, a failing entry being skipped by the except clause. -/
def largeFileCandidates (t : FSTree (Option Nat)) : List (Nat × List String) :=
  (walkTree skipDirs [] t).filterMap (fun pr => pr.2.map (fun sz => (sz, pr.1)))

/-- The top-10 largest files report of disk_cleanup. -/
def largestFilesReport (t : FSTree (Option Nat)) : List (Nat × List String) :=
  topLargest (largeFileCandidates t)

theorem insertDesc_perm {β : Type} (x : Nat × β) (l : List (Nat × β)) :
    List.Perm (insertDesc x l) (x :: l) := by
  induction l with
  | nil =>
    rw [insertDesc]
  | cons y ys ih =>
    rw [insertDesc]
    by_cases h : y.1 > x.1
    · rw [if_pos h]
      exact (ih.cons y).trans (List.Perm.swap x y ys)
    · rw [if_neg h]

theorem sortDesc_perm {β : Type} (l : List (Nat × β)) : List.Perm (sortDesc l) l := by
  induction l with
  | nil => exact List.Perm.refl _
  | cons a l ih =>
    rw [sortDesc]
    exact (insertDesc_perm a (sortDesc l)).trans (ih.cons a)

theorem insertDesc_pairwise {β : Type} (x : Nat × β) (l : List (Nat × β))
    (h : l.Pairwise (fun a b => b.1 ≤ a.1)) :
    (insertDesc x l).Pairwise (fun a b => b.1 ≤ a.1) := by
  induction l with
  | nil => simp [insertDesc]
  | cons y ys ih =>
    rw [insertDesc]
    rw [List.pairwise_cons] at h
    by_cases hc : y.1 > x.1
    · rw [if_pos hc]
      rw [List.pairwise_cons]
      constructor
      · intro b hb
        have hb2 := (insertDesc_perm x ys).mem_iff.mp hb
        rcases List.mem_cons.mp hb2 with rfl | hmem
        · exact Nat.le_of_lt hc
        · exact h.1 b hmem
      · exact ih h.2
    · rw [if_neg hc]
      rw [List.pairwise_cons]
      constructor
      · intro b hb
        rcases List.mem_cons.mp hb with rfl | hmem
        · exact Nat.le_of_not_lt hc
        · exact Nat.le_trans (h.1 b hmem) (Nat.le_of_not_lt hc)
      · exact List.pairwise_cons.mpr h
  
theorem sortDesc_pairwise {β : Type} (l : List (Nat × β)) :
    (sortDesc l).Pairwise (fun a b => b.1 ≤ a.1) := by
  induction l with
  | nil => simp [sortDesc]
  | cons a l ih => exact insertDesc_pairwise a (sortDesc l) ih

theorem insertDesc_filter_key {β : Type} (x : Nat × β) (l : List (Nat × β)) (k : Nat) :
    (insertDesc x l).filter (fun e => e.1 == k) =
      if x.1 = k then x :: l.filter (fun e => e.1 == k)
      else l.filter (fun e => e.1 == k) := by
  induction l with
  | nil =>
    by_cases hx : x.1 = k
    · simp [insertDesc, List.filter_cons, beq_iff_eq, hx]
    · simp [insertDesc, List.filter_cons, beq_iff_eq, hx]
  | cons y ys ih =>
    rw [insertDesc]
    by_cases hc : y.1 > x.1
    · rw [if_pos hc]
      by_cases hx : x.1 = k
      · have hy : ¬ y.1 = k := by omega
        simp [List.filter_cons, beq_iff_eq, hy, ih, hx]
      · simp [List.filter_cons, beq_iff_eq, ih, hx]
    · rw [if_neg hc]
      by_cases hx : x.1 = k
      · simp [List.filter_cons, beq_iff_eq, hx]
      · simp [List.filter_cons, beq_iff_eq, hx]

theorem sortDesc_filter_key {β : Type} (l : List (Nat × β)) (k : Nat) :
    (sortDesc l).filter (fun e => e.1 == k) = l.filter (fun e => e.1 == k) := by
  induction l with
  | nil => rfl
  | cons a l ih =>
    rw [sortDesc, insertDesc_filter_key]
    by_cases hx : a.1 = k
    · simp [hx, List.filter_cons, beq_iff_eq, ih]
    · simp [hx, List.filter_cons, beq_iff_eq, ih]

/-- C3: the reported largest-files list is the candidate set stably sorted by
size descending and cut to 10 entries: with at least 10 candidates exactly 10
entries are reported, with fewer the whole sorted candidate set is reported;
the report is ordered by size descending, and candidates of equal size keep
their encounter order, the earliest ones winning a place in the cut. -/
theorem c3_top_ten_report {β : Type} (l : List (Nat × β)) (k : Nat) :
    (10 ≤ l.length → (topLargest l).length = 10)
    ∧ (l.length < 10 → topLargest l = sortDesc l)
    ∧ (topLargest l).Pairwise (fun a b => b.1 ≤ a.1)
    ∧ (sortDesc l).filter (fun e => e.1 == k) = l.filter (fun e => e.1 == k)
    ∧ (topLargest l).filter (fun e => e.1 == k) <+: l.filter (fun e => e.1 == k) := by
  have hlen : (sortDesc l).length = l.length := (sortDesc_perm l).length_eq
  refine ⟨?_, ?_, ?_, ?_, ?_⟩
  · intro h
    rw [topLargest, List.length_take, hlen]
    omega
  · intro h
    rw [topLargest, List.take_of_length_le]
    omega
  · exact (sortDesc_pairwise l).sublist (List.take_sublist 10 (sortDesc l))
  · exact sortDesc_filter_key l k
  · have ht := List.take_prefix 10 (sortDesc l)
    have hf := ht.filter (fun e => e.1 == k)
    rw [sortDesc_filter_key l k] at hf
    exact hf

/-- Eleven candidates with tied sizes, to exercise the ten-entry cut. -/
def c3Sample : List (Nat × String) :=
  [(5, "a"), (9, "b"), (5, "c"), (1, "d"), (7, "e"), (9, "f"), (3, "g"),
    (8, "h"), (2, "i"), (6, "j"), (4, "k")]

/-- Three candidates, fewer than the cut. -/
def c3Short : List (Nat × String) := [(2, "x"), (8, "y"), (2, "z")]

theorem c3_witness :
    (topLargest c3Sample).length = 10 ∧ topLargest c3Short = sortDesc c3Short :=
  ⟨(c3_top_ten_report c3Sample 5).1 (by decide),
    (c3_top_ten_report c3Short 2).2.1 (by decide)⟩

/-- C2: nothing at or below an excluded directory is scanned by the pruned
walk: a walk started at an excluded path yields nothing; no collected entry
lies strictly beneath an excluded path; and in particular no file beneath an
excluded directory ever appears in the largest-files report, whatever its
size. -/
theorem c2_excluded_dirs_never_scanned {α : Type} (skip : List (List String))
    (s p : List String) (hs : s ∈ skip) (hp : ¬s <+: p) (t : FSTree α)
    (u : FSTree (Option Nat)) :
    (∀ q ∈ skip, ∀ t2 : FSTree α, walkTree skip q t2 = [])
    ∧ (∀ pr ∈ walkTree skip p t, ¬(s <+: pr.1 ∧ s ≠ pr.1))
    ∧ (∀ s2 ∈ skipDirs, ∀ e ∈ largestFilesReport u, ¬(s2 <+: e.2 ∧ s2 ≠ e.2)) := by
  refine ⟨?_, ?_, ?_⟩
  · intro q hq t2
    exact walkTree_of_mem_skip skip q hq t2
  · exact walkTree_not_beneath skip s p hs hp t
  · intro s2 hs2 e he
    rw [largestFilesReport, topLargest] at he
    have h1 : e ∈ sortDesc (largeFileCandidates u) := List.mem_of_mem_take he
    have h2 : e ∈ largeFileCandidates u := (sortDesc_perm _).mem_iff.mp h1
    obtain ⟨pr, hpr, hmap⟩ := List.mem_filterMap.mp h2
    cases h2nd : pr.2 with
    | none =>
      rw [h2nd] at hmap
      simp at hmap
    | some sz =>
      rw [h2nd] at hmap
      have hmap2 : (sz, pr.1) = e := by simpa using hmap
      have hp2 : ¬s2 <+: ([] : List String) := by
        intro hc
        rw [List.prefix_nil] at hc
        subst hc
        simp [skipDirs] at hs2
      have hnb := walkTree_not_beneath skipDirs s2 [] hs2 hp2 u pr hpr
      subst hmap2
      exact hnb

/-- A root with an excluded /proc subtree holding the largest file. -/
def demoTree : FSTree (Option Nat) :=
  .node [("rootfile", some 5)]
    (.cons "proc" (.node [("huge", some 1000000000)] .nil)
      (.cons "home" (.node [("small", some 7)] .nil) .nil))

theorem c2_witness :
    (1000000000, ["proc", "huge"]) ∉ largestFilesReport demoTree :=
  fun hmem =>
    (c2_excluded_dirs_never_scanned skipDirs ["proc"] [] (by decide) (by decide)
        demoTree demoTree).2.2
      ["proc"] (by decide) (1000000000, ["proc", "huge"]) hmem ⟨by decide, by decide⟩

/- ### security_audit.py: permission predicates -/

/-- stat.S_ISDIR: the file-format bits of st_mode equal the directory
format. -/
def S_ISDIR (mode : Nat) : Bool := decide (mode &&& 0o170000 = 0o040000)

/-- Predicate of list_world_writable_dirs_no_sticky (line 81): a directory
that is world-writable and lacks the sticky bit; the Python conjunction
treats a nonzero bitwise test as true. -/
def worldWritableDirNoSticky (mode : Nat) : Bool :=
  S_ISDIR mode && (decide (mode &&& 0o002 ≠ 0) && decide (mode &&& 0o1000 = 0))

/-- Predicate of list_suid_sgid_files (line 108): the SUID bit or the SGID
bit is set. -/
def suidOrSgid (mode : Nat) : Bool :=
  decide (mode &&& 0o4000 ≠ 0) || decide (mode &&& 0o2000 ≠ 0)

/-- Predicate of list_world_writable_files (line 52): others have write
permission. -/
def worldWritableFile (mode : Nat) : Bool := decide (mode &&& 0o002 ≠ 0)

/-- C5: the permission predicates are exactly the stated bitwise tests: a
directory is reported by the world-writable-dir scan exactly when it is a
directory with mode & 0o002 nonzero and mode & 0o1000 zero, so a directory
with permission bits 0o0777 is reported and one with 0o1777 is not; a file
is reported by the SUID/SGID scan exactly when mode & 0o4000 or mode &
0o2000 is nonzero, so a regular file with permission bits 0o4755 is reported
and one with 0o0755 is not. -/
theorem c5_permission_predicates :
    (∀ mode : Nat, worldWritableDirNoSticky mode = true ↔
      (S_ISDIR mode = true ∧ mode &&& 0o002 ≠ 0 ∧ mode &&& 0o1000 = 0))
    ∧ (∀ mode : Nat, suidOrSgid mode = true ↔
      (mode &&& 0o4000 ≠ 0 ∨ mode &&& 0o2000 ≠ 0))
    ∧ worldWritableDirNoSticky (0o040000 ||| 0o0777) = true
    ∧ worldWritableDirNoSticky (0o040000 ||| 0o1777) = false
    ∧ suidOrSgid (0o100000 ||| 0o4755) = true
    ∧ suidOrSgid (0o100000 ||| 0o0755) = false := by
  refine ⟨?_, ?_, by decide, by decide, by decide, by decide⟩
  · intro mode
    simp [worldWritableDirNoSticky, and_assoc]
  · intro mode
    simp [suidOrSgid]

/- ### per-entry errors are skipped, the walks continue -/

/-- search_logs of log_inspect.py: each file under /var/log is opened and
its lines matched; a file that cannot be opened is skipped by the except
clause and the walk continues.  File payloads model the readable line list,
None a file that raises on open; the regex test is abstracted as a line
predicate. -/
def searchLogs (m : String → Bool) (files : List (String × Option (List String))) :
    List (String × String) :=
  files.flatMap (fun e =>
    match e.2 with
    | none => []
    | some lines => (lines.filter m).map (fun ln => (e.1, ln)))

/-- C6: an error on a single entry removes only that entry from a scan: a
file whose size cannot be read contributes nothing to the largest-files
candidates while every other file of the tree is still collected, and a log
file that cannot be opened contributes nothing to the search results while
all remaining files are still searched; neither scan aborts. -/
theorem c6_per_entry_errors_skipped :
    (∀ (name : String) (f1 f2 : List (String × Option Nat)) (subs : FSForest (Option Nat)),
      largeFileCandidates (.node (f1 ++ (name, none) :: f2) subs) =
        largeFileCandidates (.node (f1 ++ f2) subs))
    ∧ (∀ (m : String → Bool) (p : String) (l1 l2 : List (String × Option (List String))),
      searchLogs m (l1 ++ (p, none) :: l2) = searchLogs m (l1 ++ l2)) := by
  constructor
  · intro name f1 f2 subs
    have hroot : ¬([] : List String) ∈ skipDirs := by decide
    rw [largeFileCandidates, largeFileCandidates, walkTree, walkTree, if_neg hroot,
      if_neg hroot]
    simp [List.filterMap_append, List.filterMap_map, Function.comp]
  · intro m p l1 l2
    simp [searchLogs]

/- ### process_monitor.py: top-CPU and top-memory report -/

/-- Level of a logged report line. -/
inductive LogLevel where
  | info
  | error
deriving DecidableEq

/-- Header of the CPU section of list_top_processes. -/
def cpuHeader : String := "==== Top 5 CPU-consuming processes ===="

/-- Header of the memory section of list_top_processes. -/
def memHeader : String := "==== Top 5 Memory-consuming processes ===="

/-- Error text logged when a ps invocation cannot be read. -/
def psErrorMsg : String := "Failed to retrieve process list"

/-- list_top_processes (lines 36-59): each ps invocation either yields its
stripped output lines or fails; a failed first invocation logs the cause and
returns, so nothing after it runs; a failed second invocation logs the cause
after the memory header was already printed. -/
def listTopProcesses (cpuSrc memSrc : Option (List String)) : List (LogLevel × String) :=
  (LogLevel.info, cpuHeader) ::
    match cpuSrc with
    | none => [(LogLevel.error, psErrorMsg)]
    | some psCpu =>
      (if psCpu.isEmpty then []
        else [(LogLevel.info, String.intercalate "\n" (psCpu.take 6))])
      ++ (LogLevel.info, memHeader) ::
        match memSrc with
        | none => [(LogLevel.error, psErrorMsg)]
        | some psMem =>
          if psMem.isEmpty then []
          else [(LogLevel.info, String.intercalate "\n" (psMem.take 6))]

/-- C7 as stated is false: with the CPU ps call failing and the memory ps
call perfectly readable, the memory sub-report is never attempted — its
header does not even appear in the output. -/
theorem c7_counterexample :
    (LogLevel.info, memHeader) ∉
      listTopProcesses none (some ["PID USER COMM", "1 root init"]) := by
  decide

/-- C7 amended: when the first (CPU) data source cannot be read the cause is
logged and the function returns at once — the report is only the CPU header
and the error line, whatever the memory source holds, so the memory
sub-report is not attempted; when the CPU source is readable the memory
section is always attempted, and a failing memory source logs the cause
after the memory header without aborting report generation. -/
theorem c7_first_failure_skips_rest (memSrc : Option (List String)) (cpuLines : List String) :
    listTopProcesses none memSrc = [(LogLevel.info, cpuHeader), (LogLevel.error, psErrorMsg)]
    ∧ (LogLevel.info, memHeader) ∈ listTopProcesses (some cpuLines) memSrc
    ∧ listTopProcesses (some cpuLines) none =
        (LogLevel.info, cpuHeader) ::
          (if cpuLines.isEmpty then []
            else [(LogLevel.info, String.intercalate "\n" (cpuLines.take 6))])
          ++ [(LogLevel.info, memHeader), (LogLevel.error, psErrorMsg)] := by
  refine ⟨rfl, ?_, rfl⟩
  rw [listTopProcesses.eq_def]
  by_cases h : cpuLines.isEmpty
  · simp [h]
  · simp [h]

/- ### argument dispatch of the script entry points -/

/-- Action taken by the disk_cleanup entry point (lines 117-126). -/
inductive DiskCleanupAction where
  | showInfo
  | clean
  | usageError
deriving DecidableEq

/-- disk_cleanup __main__, on sys.argv including the program name: no
argument shows the usage overview, exactly "--clean" cleans, anything else
logs a usage message and exits 1. -/
def diskCleanupMain (argv : List String) : DiskCleanupAction :=
  match argv with
  | [_] => .showInfo
  | [_, a] => if a = "--clean" then .clean else .usageError
  | _ => .usageError

/-- Action taken by the log_inspect entry point (lines 83-100). -/
inductive LogInspectAction where
  | search (pat : String)
  | tailFile (path : String)
  | tailDefault
  | usageSearchError
  | usageTailError
deriving DecidableEq

/-- Python str.lower applied to the mode word, on its character list. -/
def pyLower (s : String) : List Char := s.data.map Char.toLower

/-- The mode word "search" as a character list. -/
def searchWord : List Char := ['s', 'e', 'a', 'r', 'c', 'h']

/-- The mode word "tail" as a character list. -/
def tailWord : List Char := ['t', 'a', 'i', 'l']

/-- log_inspect __main__, on sys.argv including the program name: a
recognised mode word with a missing operand logs a usage message and exits
1; an unrecognised mode word falls through to the default behaviour of
tailing the system log, as does an empty argument list. -/
def logInspectMain (argv : List String) : LogInspectAction :=
  match argv with
  | _ :: mode :: rest =>
    if pyLower mode = searchWord then
      match rest with
      | [] => .usageSearchError
      | pat :: _ => .search pat
    else if pyLower mode = tailWord then
      match rest with
      | [] => .usageTailError
      | path :: _ => .tailFile path
    else .tailDefault
  | _ => .tailDefault

/-- Whether a log_inspect action is the usage-message-plus-nonzero-exit
path. -/
def logInspectExitsUsage : LogInspectAction → Bool
  | .usageSearchError => true
  | .usageTailError => true
  | _ => false

/-- C8 as stated is false: log_inspect invoked with the unrecognised mode
word "status" does not report a usage error and exit nonzero — it falls
through to tailing the default system log (a side effect) and exits 0. -/
theorem c8_counterexample :
    logInspectMain ["log_inspect.py", "status"] = LogInspectAction.tailDefault ∧
    logInspectExitsUsage (logInspectMain ["log_inspect.py", "status"]) = false := by
  constructor
  · decide
  · decide

/-- C8 amended: disk_cleanup reports a usage error and exits nonzero for any
argument vector other than no arguments or exactly "--clean"; log_inspect
reports a usage error and exits nonzero only for the recognised modes search
and tail when their operand is missing, while an unrecognised mode word
falls back to tailing the default system log with exit code 0. -/
theorem c8_argument_dispatch (prog a b c mode : String) (rest : List String)
    (ha : a ≠ "--clean") (hm1 : pyLower mode ≠ searchWord) (hm2 : pyLower mode ≠ tailWord) :
    diskCleanupMain [prog, a] = DiskCleanupAction.usageError
    ∧ diskCleanupMain (prog :: b :: c :: rest) = DiskCleanupAction.usageError
    ∧ diskCleanupMain [prog] = DiskCleanupAction.showInfo
    ∧ diskCleanupMain [prog, "--clean"] = DiskCleanupAction.clean
    ∧ logInspectMain [prog, "search"] = LogInspectAction.usageSearchError
    ∧ logInspectMain [prog, "tail"] = LogInspectAction.usageTailError
    ∧ logInspectMain (prog :: mode :: rest) = LogInspectAction.tailDefault := by
  have hsw : pyLower "search" = searchWord := by decide
  have htw : pyLower "tail" = tailWord := by decide
  have htw2 : tailWord ≠ searchWord := by decide
  refine ⟨?_, rfl, rfl, ?_, ?_, ?_, ?_⟩
  · simp [diskCleanupMain, ha]
  · simp [diskCleanupMain]
  · simp [logInspectMain, hsw]
  · simp [logInspectMain, htw, htw2]
  · simp [logInspectMain, hm1, hm2]

theorem c8_witness :
    diskCleanupMain ["disk_cleanup.py", "extra"] = DiskCleanupAction.usageError
    ∧ logInspectMain ["log_inspect.py", "bogus"] = LogInspectAction.tailDefault :=
  ⟨(c8_argument_dispatch "disk_cleanup.py" "extra" "x" "y" "bogus" []
      (by decide) (by decide) (by decide)).1,
   (c8_argument_dispatch "log_inspect.py" "extra" "x" "y" "bogus" []
      (by decide) (by decide) (by decide)).2.2.2.2.2.2⟩

/- ### update_system.py: exit-code propagation -/

/-- subprocess.run(..., check=True) over the command sequence of the chosen
package manager: the exit codes the wrapped commands would return are
consumed in order, the first nonzero one raising CalledProcessError carrying
that code and stopping the sequence. -/
def runChecked : List Int → Except Int Unit
  | [] => .ok ()
  | c :: rest => if c ≠ 0 then .error c else runChecked rest

/-- update_system __main__ (lines 33-58): with no supported package manager
the script logs an error and exits 1; otherwise the update commands run
under check=True, a raised CalledProcessError is caught, logged, and its
returncode handed to sys.exit verbatim; full success exits 0. -/
def updateSystemExitCode (pmFound : Bool) (codes : List Int) : Int :=
  if pmFound then
    match runChecked codes with
    | .ok _ => 0
    | .error c => c
  else 1

/-- C9: when a wrapped package-manager command fails with a nonzero exit
code and that is the dominant failure, the script exits with exactly that
code, propagated verbatim. -/
theorem c9_exit_code_propagated (codes : List Int) (c : Int)
    (h : runChecked codes = Except.error c) :
    c ≠ 0 ∧ updateSystemExitCode true codes = c := by
  constructor
  · induction codes with
    | nil => simp [runChecked] at h
    | cons c0 rest ih =>
      rw [runChecked] at h
      by_cases h0 : c0 = 0
      · rw [if_neg (by simp [h0])] at h
        exact ih h
      · rw [if_pos h0] at h
        injection h with h2
        subst h2
        exact h0
  · simp [updateSystemExitCode, h]

theorem c9_witness : (100 : Int) ≠ 0 ∧ updateSystemExitCode true [0, 100] = 100 :=
  c9_exit_code_propagated [0, 100] 100 (by rfl)

/- ### backup.py: failure exit code and cleanup of the partial archive -/

/-- Outcome of the guarded tarfile block of create_backup (lines 54-64):
success, a failure raised after tarfile.open already created the archive
file, or a failure before any file was created. -/
inductive TarOutcome where
  | ok
  | failAfterCreate
  | failAtOpen
deriving DecidableEq

/-- create_backup as (raised?, archive-present-afterwards?): a missing
source raises before the archive path is touched; a failed makedirs raises
likewise; on a tar failure after the archive file was created the except
clause attempts os.remove on it (line 62) and re-raises — but os.remove is
itself fallible, and when it raises, the partial archive stays on disk and
the removal error propagates instead of the original one. -/
def createBackup (srcIsDir mkdirOk : Bool) (tar : TarOutcome) (cleanupRemoveOk : Bool) :
    Bool × Bool :=
  if !srcIsDir then (true, false)
  else if !mkdirOk then (true, false)
  else
    match tar with
    | .ok => (false, true)
    | .failAfterCreate => if cleanupRemoveOk then (true, false) else (true, true)
    | .failAtOpen => (true, false)

/-- backup __main__ (lines 66-75) as (exit code, archive present?): any
exception from create_backup is caught and the process exits 1; success
exits 0. -/
def backupMain (srcIsDir mkdirOk : Bool) (tar : TarOutcome) (cleanupRemoveOk : Bool) :
    Int × Bool :=
  match createBackup srcIsDir mkdirOk tar cleanupRemoveOk with
  | (true, present) => (1, present)
  | (false, present) => (0, present)

/-- C10 as stated is false: when the tar write fails after the archive file
was created and the cleanup os.remove of the except clause itself raises,
the process does exit nonzero but the partially written archive remains at
the archive path. -/
theorem c10_counterexample :
    (backupMain true true TarOutcome.failAfterCreate false).1 = 1
    ∧ (backupMain true true TarOutcome.failAfterCreate false).2 = true := by
  decide

/-- C10 amended: every failure of backup exits with code exactly 1; a tar
failure after the archive file was created attempts to remove the partial
archive before the error propagates, and does remove it whenever that
os.remove succeeds — so the only failure that can leave a file at the
archive path is a post-creation tar failure whose cleanup removal itself
raised. -/
theorem c10_failure_exits_one_and_cleanup_removes
    (srcIsDir mkdirOk : Bool) (tar : TarOutcome) (removeOk : Bool)
    (h : (backupMain srcIsDir mkdirOk tar removeOk).1 ≠ 0) :
    (backupMain srcIsDir mkdirOk tar removeOk).1 = 1
    ∧ ((backupMain srcIsDir mkdirOk tar removeOk).2 = true →
        tar = TarOutcome.failAfterCreate ∧ removeOk = false)
    ∧ createBackup true true TarOutcome.failAfterCreate true = (true, false)
    ∧ createBackup srcIsDir mkdirOk TarOutcome.failAtOpen removeOk = (true, false) := by
  revert h
  cases srcIsDir <;> cases mkdirOk <;> cases tar <;> cases removeOk <;> decide

theorem c10_witness :
    (backupMain true true TarOutcome.failAfterCreate true).1 = 1
    ∧ ((backupMain true true TarOutcome.failAfterCreate true).2 = true →
        TarOutcome.failAfterCreate = TarOutcome.failAfterCreate ∧ true = false)
    ∧ createBackup true true TarOutcome.failAfterCreate true = (true, false)
    ∧ createBackup true true TarOutcome.failAtOpen true = (true, false) :=
  c10_failure_exits_one_and_cleanup_removes true true TarOutcome.failAfterCreate true
    (by decide)
